import Mathlib

/-!
Shallow embedding of `scraper.py` (valasztas-hu-scraper): a pipeline that turns
an election-results workbook into a GeoJSON FeatureCollection.  Remote HTTP
collaborators (the settlement-search endpoint and the map-data endpoint) are
modelled as explicit oracle functions passed to each definition; the
process-wide settlement-code cache is threaded as explicit state; Python
exceptions become `Except` values.
-/

namespace Scraper

/-- A spreadsheet cell as surfaced by `worksheet.values` in openpyxl: `empty`
models Python `None`, and otherwise the cell holds an integer or a string.
(The claims under study never involve float cells.) -/
inductive Cell where
  | empty
  | int (n : Int)
  | str (s : String)
deriving DecidableEq, Repr

/-! ### Model of the interpolated regular expression

`get_settlement_code` builds the pattern `^` ++ settlement_name ++ `(?: .+)?$`
by f-string interpolation, without escaping, and applies `re.match` to each
candidate display name.  We model the fragment of Python regex semantics this
pattern family can exercise: each character of the interpolated name is either
a literal or the metacharacter `.` (any character except newline); other regex
metacharacters in the name fall outside the modelled fragment (`nameToks`
returns `none`).  Python `$` matches at the end of the string and also just
before a single trailing newline. -/

inductive RTok where
  | lit (c : Char)
  | any
deriving DecidableEq, Repr

/-- Characters that Python `re` treats specially when interpolated raw. -/
def isRegexMeta (c : Char) : Bool :=
  c = '.' || c = '^' || c = '$' || c = '*' || c = '+' || c = '?' ||
  c = '\x7b' || c = '\x7d' || c = '[' || c = ']' || c = '\\' || c = '|' ||
  c = '(' || c = ')'

/-- Interpretation of one interpolated character of the settlement name. -/
def charTok (c : Char) : Option RTok :=
  if c = '.' then some RTok.any
  else if isRegexMeta c then none
  else some (RTok.lit c)

/-- Interpretation of a list of interpolated characters. -/
def charToks : List Char → Option (List RTok)
  | [] => some []
  | c :: cs =>
    match charTok c, charToks cs with
    | some t, some ts => some (t :: ts)
    | _, _ => none

/-- Interpretation of the whole interpolated settlement name, `none` when the
name contains a metacharacter other than `.` (outside the modelled fragment). -/
def nameToks (name : String) : Option (List RTok) :=
  charToks name.toList

def tokMatches : RTok → Char → Bool
  | RTok.lit c, d => c = d
  | RTok.any, d => d ≠ '\n'

/-- Match the interpolated-name part of the pattern against the front of the
candidate; each token consumes exactly one character.  Returns the unconsumed
remainder on success. -/
def consumeToks : List RTok → List Char → Option (List Char)
  | [], cs => some cs
  | _ :: _, [] => none
  | t :: ts, c :: cs => if tokMatches t c then consumeToks ts cs else none

/-- Semantics of ` .+$` applied after the literal space of the optional group:
one or more non-newline characters, then `$` (which also matches before a
single trailing newline). -/
def suffixMatches (cs : List Char) : Bool :=
  if cs.getLast? = some '\n' then
    !cs.dropLast.isEmpty && cs.dropLast.all (fun c => c ≠ '\n')
  else
    !cs.isEmpty && cs.all (fun c => c ≠ '\n')

/-- Semantics of `(?: .+)?$` applied to the remainder after the name part. -/
def restMatches : List Char → Bool
  | [] => true
  | ['\n'] => true
  | ' ' :: rest => suffixMatches rest
  | _ => false

/-- `re.match` of the interpolated pattern against a candidate display name. -/
def patMatches (toks : List RTok) (cand : String) : Bool :=
  match consumeToks toks cand.toList with
  | none => false
  | some rest => restMatches rest

/-! ### Remote search collaborator and the resolver -/

/-- One element of the JSON array returned by the settlement-search endpoint. -/
structure Candidate where
  telepulesNeve : String
  telepulesKod : String
deriving DecidableEq, Repr

/-- Response of the search endpoint for one keyword.  `transportFail` models an
exception raised by `session.get` itself (connection/DNS failure), which in the
source occurs *outside* the `try` block; `malformed` models an exception raised
by `response.json()` or by traversing its value, which occurs *inside* the
`try` block. -/
inductive SearchResp where
  | transportFail (msg : String)
  | malformed (msg : String)
  | candidates (cs : List Candidate)

/-- Python exceptions distinguished by the model.  `resolutionError` is the
`Exception` raised at lines 113-115 of the source, carrying the settlement
name, the stringified cause, and the request parameters; `transportError` is a
raw client exception escaping `session.get`. -/
inductive PyErr where
  | resolutionError (settlementName : String) (cause : String)
      (params : List (String × String))
  | transportError (msg : String)
  | typeError (msg : String)
  | valueError (msg : String)
deriving DecidableEq, Repr

instance {ε α : Type} [DecidableEq ε] [DecidableEq α] :
    DecidableEq (Except ε α) := fun a b =>
  match a, b with
  | Except.ok x, Except.ok y =>
      if h : x = y then Decidable.isTrue (congrArg Except.ok h)
      else Decidable.isFalse (fun hc => h (Except.ok.inj hc))
  | Except.error x, Except.error y =>
      if h : x = y then Decidable.isTrue (congrArg Except.error h)
      else Decidable.isFalse (fun hc => h (Except.error.inj hc))
  | Except.ok _, Except.error _ =>
      Decidable.isFalse (fun hc => Except.noConfusion hc)
  | Except.error _, Except.ok _ =>
      Decidable.isFalse (fun hc => Except.noConfusion hc)

abbrev Cache := List (String × String)

/-- `SETTLEMENT_CODE_CACHE[name]` (newest binding wins, as for a dict). -/
def cacheLookup (cache : Cache) (name : String) : Option String :=
  (cache.find? (fun e => e.1 = name)).map (fun e => e.2)

def API_BASE_URL : String := "https://www.valasztas.hu/szavazokorok_onk2019"

def API_COMMON_PARAMS : List (String × String) :=
  [("p_p_lifecycle", "2"),
   ("p_p_state", "maximized"),
   ("p_p_mode", "view"),
   ("p_p_cacheability", "cacheLevelPage"),
   ("_onkszavazokorieredmenyek_WAR_nvinvrportlet_vlId", "294"),
   ("_onkszavazokorieredmenyek_WAR_nvinvrportlet_vltId", "687")]

def API_GET_MAP_DATA_PARAMS : List (String × String) :=
  API_COMMON_PARAMS ++
  [("p_p_id", "onkszavazokorieredmenyek_WAR_nvinvrportlet"),
   ("p_p_resource_id", "resourceIdGetElectionMapData"),
   ("_onkszavazokorieredmenyek_WAR_nvinvrportlet_tabId", "tab2")]

def API_SEARCH_PARAMS : List (String × String) :=
  API_COMMON_PARAMS ++
  [("p_p_id", "onkszavazokorok_WAR_nvinvrportlet"),
   ("p_p_resource_id", "resourceIdGetTelepulesOrMegye")]

/-- The params dict built at lines 93-96 for one search request. -/
def searchParams (name : String) : List (String × String) :=
  API_SEARCH_PARAMS ++ [("_onkszavazokorok_WAR_nvinvrportlet_keywords", name)]

/-- Result of one call to `get_settlement_code`: the returned value or raised
exception, the cache after the call, and how many remote requests were made. -/
structure ResolveOut where
  result : Except PyErr String
  cache : Cache
  remoteCalls : Nat

/-- `get_settlement_code` (lines 88-115).  Cache hit returns immediately with
no request.  On a miss one GET is issued; a transport failure escapes the inner
`try` unwrapped; any failure inside the `try` (malformed JSON, or `next` on an
empty generator, i.e. no candidate whose display name matches the interpolated
pattern) is wrapped into the settlement-name-carrying exception; the first
matching candidate's code is cached and returned.  `none` means the settlement
name falls outside the modelled regex fragment. -/
def get_settlement_code (remote : String → SearchResp) (cache : Cache)
    (name : String) : Option ResolveOut :=
  match cacheLookup cache name with
  | some code => some ⟨Except.ok code, cache, 0⟩
  | none =>
    match remote name with
    | SearchResp.transportFail msg =>
        some ⟨Except.error (PyErr.transportError msg), cache, 1⟩
    | SearchResp.malformed msg =>
        some ⟨Except.error (PyErr.resolutionError name msg (searchParams name)),
              cache, 1⟩
    | SearchResp.candidates cs =>
      match nameToks name with
      | none => none
      | some toks =>
        match cs.find? (fun c => patMatches toks c.telepulesNeve) with
        | some c =>
            some ⟨Except.ok c.telepulesKod, (name, c.telepulesKod) :: cache, 1⟩
        | none =>
            some ⟨Except.error
                    (PyErr.resolutionError name "StopIteration"
                      (searchParams name)),
                  cache, 1⟩

/-! ### Record source adapter (`polling_stations`, lines 118-144) -/

/-- The `WorksheetColumns` enum: member name and positional index into a row. -/
def worksheetColumns : List (String × Nat) :=
  [("COUNTY", 1), ("SETTLEMENT", 2), ("STATION_NO", 3),
   ("NOMINAL_VOTER_COUNT", 4), ("ACTUAL_VOTER_COUNT", 5),
   ("BALLOTS_WITHOUT_STAMP", 6), ("BALLOTS_STAMPED", 7),
   ("BALLOT_TO_ACTUAL_VOTERS_DIFF", 8),
   ("INVALID_BALLOTS", 9), ("VALID_BALLOTS", 10),
   ("BALLOT_COUNT_MSZP_PARBESZED", 11), ("BALLOT_COUNT_MKKP", 12),
   ("BALLOT_COUNT_JOBBIK", 13), ("BALLOT_COUNT_FIDESZ", 14),
   ("BALLOT_COUNT_MOMENTUM", 15), ("BALLOT_COUNT_DK", 16),
   ("BALLOT_COUNT_MI_HAZANK", 17), ("BALLOT_COUNT_MUNKASPART", 18),
   ("BALLOT_COUNT_LMP", 19)]

/-- `PollingStationApiParamNames.SETTLEMENT_CODE.value`. -/
def SETTLEMENT_CODE_PARAM : String :=
  "_onkszavazokorieredmenyek_WAR_nvinvrportlet_telepulesKod"

/-- `PollingStationApiParamNames.COUNTY_CODE.value`. -/
def COUNTY_CODE_PARAM : String :=
  "_onkszavazokorieredmenyek_WAR_nvinvrportlet_megyeKod"

/-- `PollingStationApiParamNames.STATION_NO.value`. -/
def STATION_NO_PARAM : String :=
  "_onkszavazokorieredmenyek_WAR_nvinvrportlet_szavkorSorszam"

/-- A worksheet row: positional cells as surfaced by `worksheet.values`.
openpyxl pads every row of one sheet to the sheet's width, so indexing past
the end (modelled as `Cell.empty`, i.e. `None`) does not arise for the rows
the claims quantify over. -/
abbrev Row := List Cell

def cellAt (row : Row) (i : Nat) : Cell := row.getD i Cell.empty

/-- One enriched record yielded by `polling_stations` (the dict literal at
lines 135-144): the api-params dict, in insertion order, and the properties
dict keyed by `WorksheetColumns` member name, in declaration order. -/
structure PollingStation where
  api_params : List (String × String)
  properties : List (String × Cell)
deriving DecidableEq, Repr

/-- `f"\x7bcounty_index + 1:02\x7d"`: the 1-based sheet ordinal zero-padded on
the left to at least two digits. -/
def countyCode (countyIndex : Nat) : String :=
  let n := countyIndex + 1
  if n < 10 then "0" ++ toString n else toString n

/-- Python `int(cell)` on a worksheet cell: identity on ints, decimal parse on
strings, `TypeError` on `None`. -/
def cellToInt : Cell → Except PyErr Int
  | Cell.int n => Except.ok n
  | Cell.str s =>
    match s.toInt? with
    | some n => Except.ok n
    | none => Except.error (PyErr.typeError "invalid literal for int()")
  | Cell.empty =>
      Except.error (PyErr.typeError "int() argument cannot be NoneType")

/-- The properties dict comprehension at lines 141-143. -/
def rowProperties (row : Row) : List (String × Cell) :=
  worksheetColumns.map (fun f => (f.1, cellAt row f.2))

/-- Processing of one data row of sheet `countyIndex` (lines 125-144).
`some (Except.ok none, _)` is the skip at lines 126-127 (first cell is
`None`); `some (Except.ok (some ps), _)` is a yielded record; errors model
exceptions escaping the generator.  `none` means the row falls outside the
modelled fragment (settlement cell not a string, or a settlement name with an
unmodelled regex metacharacter). -/
def processRow (remote : String → SearchResp) (countyIndex : Nat)
    (cache : Cache) (row : Row) :
    Option (Except PyErr (Option PollingStation) × Cache) :=
  if cellAt row 0 = Cell.empty then
    some (Except.ok none, cache)
  else
    match cellToInt (cellAt row 3) with
    | Except.error e => some (Except.error e, cache)
    | Except.ok n =>
      match cellAt row 2 with
      | Cell.str settlement =>
        match get_settlement_code remote cache settlement with
        | none => none
        | some out =>
          match out.result with
          | Except.error e => some (Except.error e, out.cache)
          | Except.ok settlement_code =>
            some (Except.ok (some
              ⟨[(STATION_NO_PARAM, toString n),
                (SETTLEMENT_CODE_PARAM, settlement_code),
                (COUNTY_CODE_PARAM, countyCode countyIndex)],
               rowProperties row⟩), out.cache)
      | _ => none

/-- The data rows of one sheet, in order (the loop at lines 125-144).  An
exception raised while processing a row aborts the whole traversal: the
enclosing run collects every feature before printing, so records yielded
before the exception never reach the output. -/
def processRows (remote : String → SearchResp) (countyIndex : Nat)
    (cache : Cache) :
    List Row → Option (Except PyErr (List PollingStation) × Cache)
  | [] => some (Except.ok [], cache)
  | row :: rest =>
    match processRow remote countyIndex cache row with
    | none => none
    | some (Except.error e, c2) => some (Except.error e, c2)
    | some (Except.ok none, c2) => processRows remote countyIndex c2 rest
    | some (Except.ok (some ps), c2) =>
      match processRows remote countyIndex c2 rest with
      | none => none
      | some (Except.error e, c3) => some (Except.error e, c3)
      | some (Except.ok l, c3) => some (Except.ok (ps :: l), c3)

/-- One sheet: `_, *rows = worksheet.values` discards the header row (and
raises `ValueError` on an empty sheet). -/
def processSheet (remote : String → SearchResp) (countyIndex : Nat)
    (cache : Cache) (sheet : List Row) :
    Option (Except PyErr (List PollingStation) × Cache) :=
  match sheet with
  | [] => some (Except.error
      (PyErr.valueError "not enough values to unpack"), cache)
  | _header :: rows => processRows remote countyIndex cache rows

/-- The sheets of the workbook in order, `countyIndex` enumerating from the
given start (the loop at line 121). -/
def processSheets (remote : String → SearchResp) (cache : Cache)
    (countyIndex : Nat) :
    List (List Row) → Option (Except PyErr (List PollingStation) × Cache)
  | [] => some (Except.ok [], cache)
  | sheet :: rest =>
    match processSheet remote countyIndex cache sheet with
    | none => none
    | some (Except.error e, c2) => some (Except.error e, c2)
    | some (Except.ok l1, c2) =>
      match processSheets remote c2 (countyIndex + 1) rest with
      | none => none
      | some (Except.error e, c3) => some (Except.error e, c3)
      | some (Except.ok l2, c3) => some (Except.ok (l1 ++ l2), c3)

/-- `polling_stations` drained into a list: the workbook's sheets enumerated
from index 0 with an initially empty `SETTLEMENT_CODE_CACHE`. -/
def polling_stations (remote : String → SearchResp)
    (workbook : List (List Row)) :
    Option (Except PyErr (List PollingStation) × Cache) :=
  processSheets remote [] 0 workbook

/-! ### Geometry fetcher (`fetch_polling_station_geometries`, lines 154-182) -/

/-- One point of the decoded `paths` payload. -/
structure GeoPoint where
  lat : ℚ
  lng : ℚ
deriving DecidableEq, Repr

/-- Response of the map-data endpoint for one station.  `transportFail`
models an exception raised by `session.get` itself, which in the source
occurs *outside* the `try` at line 163; `badPayload` models any exception
raised inside the `try` while decoding (`response.json()`, the
`data["polygon"]["paths"]` traversal, or `json.loads`); `points` is a
successfully decoded list of lat/lng points. -/
inductive GeomResp where
  | transportFail (msg : String)
  | badPayload (msg : String)
  | points (pts : List GeoPoint)

/-- GeoJSON-style polygon geometry produced by `shapely.geometry.mapping`:
a list of rings, each an ordered list of (lng, lat) pairs. -/
structure Geometry where
  coordinates : List (List (ℚ × ℚ))
deriving DecidableEq, Repr

/-- Modelled from the behaviour of `shapely` 1.x (the library contemporary
with this repository, not part of src/): `Polygon(pts)` raises for fewer than
3 points (including the empty sequence), and otherwise builds an exterior
ring, closing it by appending the first point when the sequence is not
already closed; `mapping` then renders the single-ring polygon. -/
def shapelyPolygonMapping (pts : List (ℚ × ℚ)) :
    Except String Geometry :=
  match pts with
  | p :: q :: r :: rest =>
    let ring := p :: q :: r :: rest
    let closed := if ring.getLast? = some p then ring else ring ++ [p]
    Except.ok ⟨[closed]⟩
  | _ => Except.error "A LinearRing must have at least 3 coordinate tuples"

/-- A GeoJSON `Feature`: nullable geometry plus the record's properties. -/
structure Feature where
  geometry : Option Geometry
  properties : List (String × Cell)
deriving DecidableEq, Repr

/-- The params dict built at line 160 for one station's map-data request. -/
def stationGeomParams (ps : PollingStation) : List (String × String) :=
  API_GET_MAP_DATA_PARAMS ++ ps.api_params

/-- The geometry bound to a station's feature on the non-aborting path: `none`
whenever anything inside the `try` raised (bad payload, or polygon
construction failure such as fewer than 3 points), the mapped closed polygon
over (lng, lat) pairs otherwise. -/
def fetchedGeometry (geomRemote : List (String × String) → GeomResp)
    (ps : PollingStation) : Option Geometry :=
  match geomRemote (stationGeomParams ps) with
  | GeomResp.transportFail _ => none
  | GeomResp.badPayload _ => none
  | GeomResp.points pts =>
    match shapelyPolygonMapping (pts.map (fun p => (p.lng, p.lat))) with
    | Except.error _ => none
    | Except.ok g => some g

/-- Fetching one station's feature (lines 160-182).  A transport failure at
`session.get` escapes the handler and aborts; every failure inside the `try`
yields the feature with `geometry = None`. -/
def featureOf (geomRemote : List (String × String) → GeomResp)
    (ps : PollingStation) : Except PyErr Feature :=
  match geomRemote (stationGeomParams ps) with
  | GeomResp.transportFail msg => Except.error (PyErr.transportError msg)
  | GeomResp.badPayload _ => Except.ok ⟨none, ps.properties⟩
  | GeomResp.points pts =>
    match shapelyPolygonMapping (pts.map (fun p => (p.lng, p.lat))) with
    | Except.error _ => Except.ok ⟨none, ps.properties⟩
    | Except.ok g => Except.ok ⟨some g, ps.properties⟩

/-- The geometry fetcher drained over an already-produced record list: one
feature per record, in order, aborting only on a transport failure. -/
def fetchFeatures (geomRemote : List (String × String) → GeomResp) :
    List PollingStation → Except PyErr (List Feature)
  | [] => Except.ok []
  | ps :: rest =>
    match featureOf geomRemote ps with
    | Except.error e => Except.error e
    | Except.ok f =>
      match fetchFeatures geomRemote rest with
      | Except.error e => Except.error e
      | Except.ok fs => Except.ok (f :: fs)

/-! ### The fused pipeline and `run` (lines 185-194)

The Python generators interleave: each record is produced, then its geometry
fetched, before the next row is read.  The fused definitions below model that
interleaving; `run` collects every feature before printing, so an exception
anywhere yields no output document. -/

def featureRows (remote : String → SearchResp)
    (geomRemote : List (String × String) → GeomResp) (countyIndex : Nat)
    (cache : Cache) :
    List Row → Option (Except PyErr (List Feature) × Cache)
  | [] => some (Except.ok [], cache)
  | row :: rest =>
    match processRow remote countyIndex cache row with
    | none => none
    | some (Except.error e, c2) => some (Except.error e, c2)
    | some (Except.ok none, c2) =>
        featureRows remote geomRemote countyIndex c2 rest
    | some (Except.ok (some ps), c2) =>
      match featureOf geomRemote ps with
      | Except.error e => some (Except.error e, c2)
      | Except.ok f =>
        match featureRows remote geomRemote countyIndex c2 rest with
        | none => none
        | some (Except.error e, c3) => some (Except.error e, c3)
        | some (Except.ok fs, c3) => some (Except.ok (f :: fs), c3)

def featureSheet (remote : String → SearchResp)
    (geomRemote : List (String × String) → GeomResp) (countyIndex : Nat)
    (cache : Cache) (sheet : List Row) :
    Option (Except PyErr (List Feature) × Cache) :=
  match sheet with
  | [] => some (Except.error
      (PyErr.valueError "not enough values to unpack"), cache)
  | _header :: rows => featureRows remote geomRemote countyIndex cache rows

def featureSheets (remote : String → SearchResp)
    (geomRemote : List (String × String) → GeomResp) (cache : Cache)
    (countyIndex : Nat) :
    List (List Row) → Option (Except PyErr (List Feature) × Cache)
  | [] => some (Except.ok [], cache)
  | sheet :: rest =>
    match featureSheet remote geomRemote countyIndex cache sheet with
    | none => none
    | some (Except.error e, c2) => some (Except.error e, c2)
    | some (Except.ok l1, c2) =>
      match featureSheets remote geomRemote c2 (countyIndex + 1) rest with
      | none => none
      | some (Except.error e, c3) => some (Except.error e, c3)
      | some (Except.ok l2, c3) => some (Except.ok (l1 ++ l2), c3)

structure FeatureCollection where
  features : List Feature
deriving DecidableEq, Repr

/-- `run` (lines 185-194): drain the feature generator into a list and wrap
it as a `FeatureCollection`; the printed document exists only when no
exception escaped. -/
def run (remote : String → SearchResp)
    (geomRemote : List (String × String) → GeomResp)
    (workbook : List (List Row)) :
    Option (Except PyErr FeatureCollection) :=
  match featureSheets remote geomRemote [] 0 workbook with
  | none => none
  | some (Except.error e, _) => some (Except.error e)
  | some (Except.ok fs, _) => some (Except.ok ⟨fs⟩)

/-! ### Helper lemmas -/

theorem cacheLookup_cons_self (cache : Cache) (name code : String) :
    cacheLookup ((name, code) :: cache) name = some code := by
  simp [cacheLookup, List.find?]

theorem get_settlement_code_hit (remote : String → SearchResp) (cache : Cache)
    (name code : String) (h : cacheLookup cache name = some code) :
    get_settlement_code remote cache name = some ⟨Except.ok code, cache, 0⟩ := by
  unfold get_settlement_code
  rw [h]

/-! ### Claim theorems -/

/-- C3: a settlement name resolved successfully stores its name-to-code entry
in the cache before returning, and a second resolution of the same name within
the run performs no remote call (the result is independent of the remote
oracle and issues zero requests) and returns the identical code with the cache
unchanged. -/
theorem C3_cache_idempotent (remote : String → SearchResp) (cache : Cache)
    (name : String) (out : ResolveOut)
    (h : get_settlement_code remote cache name = some out)
    (code : String) (hc : out.result = Except.ok code) :
    cacheLookup out.cache name = some code ∧
    ∀ remote2 : String → SearchResp,
      get_settlement_code remote2 out.cache name =
        some ⟨Except.ok code, out.cache, 0⟩ := by
  have hl : cacheLookup out.cache name = some code := by
    unfold get_settlement_code at h
    split at h
    · rename_i c hcl
      cases h
      simp only [Except.ok.injEq] at hc
      rw [← hc]
      exact hcl
    · rename_i hcl
      split at h
      · cases h
        simp at hc
      · cases h
        simp at hc
      · split at h
        · cases h
        · split at h
          · rename_i c hfind
            cases h
            simp only [Except.ok.injEq] at hc
            rw [← hc]
            exact cacheLookup_cons_self ..
          · cases h
            simp at hc
  exact ⟨hl, fun remote2 => get_settlement_code_hit remote2 out.cache name code hl⟩

/-- C3 witness: concrete successful resolution followed by a second call
against a remote oracle that would fail, still a cache hit. -/
theorem C3_cache_idempotent_witness :
    cacheLookup [("Szeged", "123")] "Szeged" = some "123" ∧
    ∀ remote2 : String → SearchResp,
      get_settlement_code remote2 [("Szeged", "123")] "Szeged" =
        some ⟨Except.ok "123", [("Szeged", "123")], 0⟩ :=
  C3_cache_idempotent (fun _ => SearchResp.candidates [⟨"Szeged", "123"⟩]) []
    "Szeged" ⟨Except.ok "123", [("Szeged", "123")], 1⟩ rfl "123" rfl

/-- C4 counterexample: for a transport failure the raised error is the raw
client exception, which does not carry the settlement name, cause and request
parameters — the `raise` wrapping them sits inside a `try` block that the
`session.get` call is outside of.  (Nothing is cached, and the run still
aborts; only the "carrying" part of the claim fails.) -/
theorem C4_counterexample :
    get_settlement_code (fun _ => SearchResp.transportFail "connection reset")
        [] "Alpha" =
      some ⟨Except.error (PyErr.transportError "connection reset"), [], 1⟩ ∧
    ∀ cause params, PyErr.transportError "connection reset" ≠
      PyErr.resolutionError "Alpha" cause params := by
  refine ⟨rfl, fun cause params h => ?_⟩
  exact PyErr.noConfusion h

/-- C4 (amended): on a resolution failure caused by a malformed response or by
no candidate matching, the raised error carries the settlement name, the
underlying cause and the request parameters used; a transport failure at
request time propagates as the raw client error instead.  In every failure
case nothing is written to the cache, and with the run-initial empty cache a
workbook whose first data row holds that settlement name makes the whole run
abort with that error, producing no output document. -/
theorem C4_amended (remote : String → SearchResp) (cache : Cache)
    (name : String) (out : ResolveOut)
    (h : get_settlement_code remote cache name = some out)
    (e : PyErr) (he : out.result = Except.error e) :
    out.cache = cache ∧
    ((∃ msg, remote name = SearchResp.transportFail msg ∧
        e = PyErr.transportError msg) ∨
     (∃ cause, e = PyErr.resolutionError name cause (searchParams name))) ∧
    (cache = [] →
      ∀ (geomRemote : List (String × String) → GeomResp) (header row : Row)
        (rest : List Row) (n : Int),
        cellAt row 0 ≠ Cell.empty → cellToInt (cellAt row 3) = Except.ok n →
        cellAt row 2 = Cell.str name →
        run remote geomRemote [header :: row :: rest] =
          some (Except.error e)) := by
  have hmain : out.cache = cache ∧
      ((∃ msg, remote name = SearchResp.transportFail msg ∧
          e = PyErr.transportError msg) ∨
       (∃ cause, e = PyErr.resolutionError name cause (searchParams name))) := by
    unfold get_settlement_code at h
    split at h
    · cases h
      simp at he
    · split at h
      · rename_i msg hr
        cases h
        simp only [Except.error.injEq] at he
        exact ⟨rfl, Or.inl ⟨msg, hr, he.symm⟩⟩
      · rename_i msg hr
        cases h
        simp only [Except.error.injEq] at he
        exact ⟨rfl, Or.inr ⟨msg, he.symm⟩⟩
      · split at h
        · cases h
        · split at h
          · cases h
            simp at he
          · cases h
            simp only [Except.error.injEq] at he
            exact ⟨rfl, Or.inr ⟨"StopIteration", he.symm⟩⟩
  refine ⟨hmain.1, hmain.2, fun hcache geomRemote header row rest n h0 h3 h2 => ?_⟩
  subst hcache
  have hrow : processRow remote 0 [] row = some (Except.error e, out.cache) := by
    unfold processRow
    rw [if_neg h0, h3, h2]
    simp only [h, he]
  simp only [run, featureSheets, featureSheet, featureRows, hrow]

/-- C4 witness: a malformed search response for "Beta" with the run-initial
empty cache; the wrapped error carries the name and the request parameters,
nothing is cached, and a one-sheet run on a row naming "Beta" aborts. -/
theorem C4_amended_witness :
    ([] : Cache) = [] ∧
    ((∃ msg, SearchResp.malformed "bad json" = SearchResp.transportFail msg ∧
        PyErr.resolutionError "Beta" "bad json" (searchParams "Beta") =
          PyErr.transportError msg) ∨
     (∃ cause, PyErr.resolutionError "Beta" "bad json" (searchParams "Beta") =
        PyErr.resolutionError "Beta" cause (searchParams "Beta"))) ∧
    (([] : Cache) = [] →
      ∀ (geomRemote : List (String × String) → GeomResp) (header row : Row)
        (rest : List Row) (n : Int),
        cellAt row 0 ≠ Cell.empty → cellToInt (cellAt row 3) = Except.ok n →
        cellAt row 2 = Cell.str "Beta" →
        run (fun _ => SearchResp.malformed "bad json") geomRemote
            [header :: row :: rest] =
          some (Except.error
            (PyErr.resolutionError "Beta" "bad json" (searchParams "Beta")))) :=
  C4_amended (fun _ => SearchResp.malformed "bad json") [] "Beta"
    ⟨Except.error (PyErr.resolutionError "Beta" "bad json"
        (searchParams "Beta")), [], 1⟩
    rfl _ rfl

/-- C2 counterexample: Python `$` also matches just before a single trailing
newline, so for the metacharacter-free settlement name "Szeged" the resolver
selects a candidate whose display name is "Szeged" followed by a newline,
although that name neither equals "Szeged" nor equals "Szeged" followed by a
space and a suffix. -/
theorem C2_counterexample :
    get_settlement_code
        (fun _ => SearchResp.candidates [⟨"Szeged\n", "7"⟩]) [] "Szeged" =
      some ⟨Except.ok "7", [("Szeged", "7")], 1⟩ ∧
    "Szeged\n" ≠ "Szeged" ∧
    ∀ s : String, "Szeged\n" ≠ "Szeged" ++ " " ++ s := by
  refine ⟨rfl, by decide, fun s h => ?_⟩
  have hd := congrArg String.data h
  simp only [String.data_append] at hd
  simp at hd

/-- C10: the resolver interpolates the raw settlement name into the regex
pattern unescaped, so for the name "A.B" (where `.` matches any character)
the candidate display name "AXB" is selected, although "AXB" neither equals
"A.B" nor equals "A.B" followed by a space and a suffix. -/
theorem C10_unescaped_metacharacter :
    get_settlement_code
        (fun _ => SearchResp.candidates [⟨"AXB", "42"⟩]) [] "A.B" =
      some ⟨Except.ok "42", [("A.B", "42")], 1⟩ ∧
    "AXB" ≠ "A.B" ∧
    ∀ s : String, "AXB" ≠ "A.B" ++ " " ++ s := by
  refine ⟨rfl, by decide, fun s h => ?_⟩
  have hd := congrArg String.data h
  simp only [String.data_append] at hd
  simp at hd

/-- C9: only a first cell that is exactly `None` triggers the row skip — the
source tests `row[0] is None` — so a row whose first positional cell is the
empty string is not skipped and the adapter still attempts to emit a record
for it (the skip outcome is impossible for such a row). -/
theorem C9_empty_string_first_cell_not_skipped (remote : String → SearchResp)
    (countyIndex : Nat) (cache : Cache) (row : Row)
    (h : cellAt row 0 = Cell.str "") (c : Cache) :
    processRow remote countyIndex cache row ≠ some (Except.ok none, c) := by
  intro hc
  unfold processRow at hc
  rw [h, if_neg (by decide : ¬ (Cell.str "" = Cell.empty))] at hc
  split at hc
  · simp at hc
  · split at hc
    · split at hc
      · exact Option.noConfusion hc
      · split at hc
        · simp at hc
        · simp at hc
    · exact Option.noConfusion hc

/-- C9 witness: a concrete row with first cell `""` resolves and emits a
record, never the skip outcome. -/
theorem C9_witness :
    processRow (fun _ => SearchResp.candidates [⟨"Buda", "11"⟩]) 0 []
        ([Cell.str "", Cell.str "Pest", Cell.str "Buda", Cell.int 2] ++
          List.replicate 16 (Cell.int 5)) ≠
      some (Except.ok none, []) :=
  C9_empty_string_first_cell_not_skipped
    (fun _ => SearchResp.candidates [⟨"Buda", "11"⟩]) 0 []
    ([Cell.str "", Cell.str "Pest", Cell.str "Buda", Cell.int 2] ++
      List.replicate 16 (Cell.int 5)) rfl []

/-! Decimal-rendering length facts used to relate the source's zero-padding
`f"...:02"` to the claim's "zero-padded to width 2". -/

theorem toDigitsCore_length_ge (b : Nat) :
    ∀ (f m : Nat) (l : List Char),
      l.length ≤ (Nat.toDigitsCore b f m l).length := by
  intro f
  induction f with
  | zero => intro m l; simp [Nat.toDigitsCore]
  | succ f ih =>
    intro m l
    unfold Nat.toDigitsCore
    dsimp only
    split
    · simp
    · exact le_trans (by simp) (ih _ _)

theorem toDigitsCore_length_gt (b f m : Nat) (l : List Char) (hf : 0 < f) :
    l.length + 1 ≤ (Nat.toDigitsCore b f m l).length := by
  cases f with
  | zero => exact absurd hf (by omega)
  | succ f =>
    unfold Nat.toDigitsCore
    dsimp only
    split
    · simp
    · calc l.length + 1 = (Nat.digitChar (m % b) :: l).length := by simp
        _ ≤ _ := toDigitsCore_length_ge ..

theorem repr_length_ge_two (n : Nat) (h : 10 ≤ n) : 2 ≤ (Nat.repr n).length := by
  have h1 : Nat.repr n = (Nat.toDigitsCore 10 (n + 1) n []).asString := rfl
  have h2 : (Nat.toDigitsCore 10 (n + 1) n []).asString.length =
      (Nat.toDigitsCore 10 (n + 1) n []).length := rfl
  rw [h1, h2]
  have hne : ¬ n / 10 = 0 := by omega
  rw [show Nat.toDigitsCore 10 (n + 1) n [] =
      Nat.toDigitsCore 10 n (n / 10) [Nat.digitChar (n % 10)] by
    conv_lhs => unfold Nat.toDigitsCore
    rw [if_neg hne]]
  have := toDigitsCore_length_gt 10 n (n / 10) [Nat.digitChar (n % 10)]
    (by omega)
  simpa using this

theorem repr_length_one (n : Nat) (h : n < 10) : (Nat.repr n).length = 1 := by
  interval_cases n <;> rfl

/-- The source's `f"...:02"` county-code rendering agrees with "decimal,
zero-padded on the left to width 2". -/
theorem countyCode_eq_leftpad (i : Nat) :
    countyCode i = String.leftpad 2 '0' (Nat.repr (i + 1)) := by
  have hdata : ∀ s : String, s.data.length = s.length := fun _ => rfl
  unfold countyCode String.leftpad
  by_cases h : i + 1 < 10
  · rw [if_pos h]
    apply String.ext
    have hlen : (Nat.repr (i + 1)).data.length = 1 := by
      rw [hdata]; exact repr_length_one _ h
    simp only [String.data_append, List.leftpad, hlen]
    rfl
  · rw [if_neg h]
    apply String.ext
    have hlen : 2 ≤ (Nat.repr (i + 1)).data.length := by
      rw [hdata]; exact repr_length_ge_two _ (by omega)
    simp only [List.leftpad, Nat.sub_eq_zero_of_le hlen, List.replicate,
      List.nil_append]
    rfl

/-- Association lookup into a params dict built as a list of pairs. -/
def paramLookup (params : List (String × String)) (key : String) :
    Option String :=
  (params.find? (fun e => e.1 = key)).map (fun e => e.2)

/-- C5: every record emitted from the sheet with 0-based index `i` (the
(i+1)-th sheet of the source) carries as county code the decimal rendering of
i+1 zero-padded to width 2, and as station number the row's station-number
cell coerced to an integer and rendered back as a decimal string. -/
theorem C5_lookup_key (remote : String → SearchResp) (countyIndex : Nat)
    (cache : Cache) (row : Row) (ps : PollingStation) (c2 : Cache)
    (h : processRow remote countyIndex cache row =
      some (Except.ok (some ps), c2)) :
    paramLookup ps.api_params COUNTY_CODE_PARAM =
      some (String.leftpad 2 '0' (Nat.repr (countyIndex + 1))) ∧
    ∃ n : Int, cellToInt (cellAt row 3) = Except.ok n ∧
      paramLookup ps.api_params STATION_NO_PARAM = some (toString n) := by
  unfold processRow at h
  split at h
  · simp at h
  · split at h
    · simp at h
    · rename_i n hn
      split at h
      · split at h
        · exact Option.noConfusion h
        · split at h
          · simp at h
          · rename_i code hcode
            simp only [Option.some.injEq, Prod.mk.injEq] at h
            obtain ⟨hps, -⟩ := h
            simp only [Except.ok.injEq, Option.some.injEq] at hps
            refine ⟨?_, n, hn, ?_⟩
            · rw [← hps, ← countyCode_eq_leftpad]
              rfl
            · rw [← hps]
              rfl
      · exact Option.noConfusion h

/-- C5 witness: the third sheet (0-based index 2) yields county code "03" and
station cell 7 yields station number "7". -/
theorem C5_lookup_key_witness :
    paramLookup
        [(STATION_NO_PARAM, "7"), (SETTLEMENT_CODE_PARAM, "11"),
         (COUNTY_CODE_PARAM, "03")] COUNTY_CODE_PARAM =
      some (String.leftpad 2 '0' (Nat.repr 3)) ∧
    ∃ n : Int,
      cellToInt (cellAt ([Cell.str "x", Cell.str "Pest", Cell.str "Buda",
        Cell.int 7] ++ List.replicate 16 (Cell.int 5)) 3) = Except.ok n ∧
      paramLookup
          [(STATION_NO_PARAM, "7"), (SETTLEMENT_CODE_PARAM, "11"),
           (COUNTY_CODE_PARAM, "03")] STATION_NO_PARAM = some (toString n) :=
  C5_lookup_key (fun _ => SearchResp.candidates [⟨"Buda", "11"⟩]) 2 []
    ([Cell.str "x", Cell.str "Pest", Cell.str "Buda", Cell.int 7] ++
      List.replicate 16 (Cell.int 5))
    ⟨[(STATION_NO_PARAM, "7"), (SETTLEMENT_CODE_PARAM, "11"),
      (COUNTY_CODE_PARAM, "03")],
     rowProperties ([Cell.str "x", Cell.str "Pest", Cell.str "Buda",
       Cell.int 7] ++ List.replicate 16 (Cell.int 5))⟩
    [("Buda", "11")] rfl

/-! ### Cache-independent description of successful processing -/

/-- The code a fresh, successful resolution of `name` would return: the first
candidate of the remote response whose display name matches the interpolated
pattern. -/
def resolveOkPure (remote : String → SearchResp) (name : String) :
    Option String :=
  match remote name, nameToks name with
  | SearchResp.candidates cs, some toks =>
      (cs.find? (fun c => patMatches toks c.telepulesNeve)).map
        (fun c => c.telepulesKod)
  | _, _ => none

/-- Every cache entry agrees with a fresh resolution (holds for the empty
run-initial cache and is preserved by every successful resolution). -/
def CacheOk (remote : String → SearchResp) (cache : Cache) : Prop :=
  ∀ p ∈ cache, resolveOkPure remote p.1 = some p.2

theorem cacheOk_nil (remote : String → SearchResp) : CacheOk remote [] := by
  intro p hp
  cases hp

theorem resolveOkPure_eq (remote : String → SearchResp) (name : String)
    (cs : List Candidate) (toks : List RTok)
    (hr : remote name = SearchResp.candidates cs)
    (ht : nameToks name = some toks) :
    resolveOkPure remote name =
      (cs.find? (fun c => patMatches toks c.telepulesNeve)).map
        (fun c => c.telepulesKod) := by
  unfold resolveOkPure
  rw [hr, ht]

/-- The record that processing a retained row would emit, written without the
cache: the cache only memoizes `resolveOkPure`, so the emitted record does not
depend on it. -/
def recordOf (remote : String → SearchResp) (countyIndex : Nat) (row : Row) :
    Option PollingStation :=
  match cellToInt (cellAt row 3), cellAt row 2 with
  | Except.ok n, Cell.str s =>
      (resolveOkPure remote s).map (fun code =>
        ⟨[(STATION_NO_PARAM, toString n),
          (SETTLEMENT_CODE_PARAM, code),
          (COUNTY_CODE_PARAM, countyCode countyIndex)],
         rowProperties row⟩)
  | _, _ => none

theorem recordOf_eq (remote : String → SearchResp) (countyIndex : Nat)
    (row : Row) (n : Int) (s : String)
    (hn : cellToInt (cellAt row 3) = Except.ok n)
    (hs : cellAt row 2 = Cell.str s) :
    recordOf remote countyIndex row =
      (resolveOkPure remote s).map (fun code =>
        ⟨[(STATION_NO_PARAM, toString n),
          (SETTLEMENT_CODE_PARAM, code),
          (COUNTY_CODE_PARAM, countyCode countyIndex)],
         rowProperties row⟩) := by
  unfold recordOf
  rw [hn, hs]

theorem get_settlement_code_of_cacheOk (remote : String → SearchResp)
    (cache : Cache) (name code : String) (hc : CacheOk remote cache)
    (hres : resolveOkPure remote name = some code) :
    ∃ out : ResolveOut, get_settlement_code remote cache name = some out ∧
      out.result = Except.ok code ∧ CacheOk remote out.cache := by
  cases hcl : cacheLookup cache name with
  | some c =>
    have hpc : c = code := by
      unfold cacheLookup at hcl
      cases hf : cache.find? (fun e => e.1 = name) with
      | none => rw [hf] at hcl; cases hcl
      | some p =>
        rw [hf] at hcl
        simp only [Option.map] at hcl
        simp only [Option.some.injEq] at hcl
        have hmem := List.mem_of_find?_eq_some hf
        have hkey : p.1 = name := by
          have h1 := List.find?_some hf
          simp only [decide_eq_true_eq] at h1
          exact h1
        have h2 := hc p hmem
        rw [hkey, hres] at h2
        simp only [Option.some.injEq] at h2
        rw [← hcl, ← h2]
    refine ⟨⟨Except.ok c, cache, 0⟩, ?_, by rw [hpc], hc⟩
    unfold get_settlement_code
    rw [hcl]
  | none =>
    cases hr : remote name with
    | transportFail msg =>
      unfold resolveOkPure at hres
      rw [hr] at hres
      cases hres
    | malformed msg =>
      unfold resolveOkPure at hres
      rw [hr] at hres
      cases hres
    | candidates cs =>
      cases ht : nameToks name with
      | none =>
        unfold resolveOkPure at hres
        rw [hr, ht] at hres
        cases hres
      | some toks =>
        rw [resolveOkPure_eq remote name cs toks hr ht] at hres
        cases hf : cs.find? (fun c => patMatches toks c.telepulesNeve) with
        | none => rw [hf] at hres; cases hres
        | some c =>
          rw [hf] at hres
          simp only [Option.map] at hres
          simp only [Option.some.injEq] at hres
          refine ⟨⟨Except.ok c.telepulesKod, (name, c.telepulesKod) :: cache, 1⟩,
            ?_, by rw [hres], ?_⟩
          · unfold get_settlement_code
            simp only [hcl, hr, ht, hf]
          · intro p hp
            cases hp with
            | head =>
              show resolveOkPure remote name = some c.telepulesKod
              rw [resolveOkPure_eq remote name cs toks hr ht, hf]
              rfl
            | tail _ hmem => exact hc p hmem

/-- A data row that is retained and processes without an exception: first cell
not `None`, integer-coercible station cell, string settlement cell that the
remote oracle resolves. -/
def goodRow (remote : String → SearchResp) (row : Row) : Prop :=
  cellAt row 0 ≠ Cell.empty ∧
  (∃ n, cellToInt (cellAt row 3) = Except.ok n) ∧
  (∃ s code, cellAt row 2 = Cell.str s ∧ resolveOkPure remote s = some code)

theorem processRow_skip (remote : String → SearchResp) (countyIndex : Nat)
    (cache : Cache) (row : Row) (h : cellAt row 0 = Cell.empty) :
    processRow remote countyIndex cache row = some (Except.ok none, cache) := by
  unfold processRow
  rw [if_pos h]

theorem processRow_good (remote : String → SearchResp) (countyIndex : Nat)
    (cache : Cache) (row : Row) (hc : CacheOk remote cache)
    (hg : goodRow remote row) :
    ∃ (ps : PollingStation) (cache2 : Cache),
      recordOf remote countyIndex row = some ps ∧
      processRow remote countyIndex cache row =
        some (Except.ok (some ps), cache2) ∧
      CacheOk remote cache2 := by
  obtain ⟨h0, ⟨n, hn⟩, s, code, hs, hres⟩ := hg
  obtain ⟨out, hout, hok, hcache2⟩ :=
    get_settlement_code_of_cacheOk remote cache s code hc hres
  refine ⟨⟨[(STATION_NO_PARAM, toString n),
            (SETTLEMENT_CODE_PARAM, code),
            (COUNTY_CODE_PARAM, countyCode countyIndex)],
           rowProperties row⟩, out.cache, ?_, ?_, hcache2⟩
  · rw [recordOf_eq remote countyIndex row n s hn hs, hres]
    rfl
  · unfold processRow
    rw [if_neg h0, hn, hs]
    simp only [hout, hok]

theorem processRows_good (remote : String → SearchResp) (countyIndex : Nat) :
    ∀ (rows : List Row) (cache : Cache), CacheOk remote cache →
      (∀ r ∈ rows, cellAt r 0 = Cell.empty ∨ goodRow remote r) →
      ∃ (l : List PollingStation) (cache2 : Cache),
        processRows remote countyIndex cache rows =
          some (Except.ok l, cache2) ∧
        l = rows.filterMap (fun r =>
          if cellAt r 0 = Cell.empty then none
          else recordOf remote countyIndex r) ∧
        CacheOk remote cache2 := by
  intro rows
  induction rows with
  | nil =>
    intro cache hc _
    exact ⟨[], cache, rfl, rfl, hc⟩
  | cons row rest ih =>
    intro cache hc hgood
    cases hrow : (inferInstance : Decidable (cellAt row 0 = Cell.empty)) with
    | isTrue h0 =>
      obtain ⟨l, cache2, hrec, hl, hc2⟩ :=
        ih cache hc (fun r hr => hgood r (List.mem_cons_of_mem _ hr))
      refine ⟨l, cache2, ?_, ?_, hc2⟩
      · unfold processRows
        simp only [processRow_skip remote countyIndex cache row h0]
        exact hrec
      · rw [hl]
        simp only [List.filterMap_cons, if_pos h0]
    | isFalse h0 =>
      have hg : goodRow remote row := by
        cases hgood row (List.mem_cons_self row rest) with
        | inl h => exact absurd h h0
        | inr h => exact h
      obtain ⟨ps, cache2, hps, hpr, hc2⟩ :=
        processRow_good remote countyIndex cache row hc hg
      obtain ⟨l, cache3, hrec, hl, hc3⟩ :=
        ih cache2 hc2 (fun r hr => hgood r (List.mem_cons_of_mem _ hr))
      refine ⟨ps :: l, cache3, ?_, ?_, hc3⟩
      · unfold processRows
        simp only [hpr, hrec]
      · rw [hl]
        simp only [List.filterMap_cons, if_neg h0, hps]

theorem recordOf_isSome_of_good (remote : String → SearchResp)
    (countyIndex : Nat) (row : Row) (hg : goodRow remote row) :
    (recordOf remote countyIndex row).isSome := by
  obtain ⟨-, ⟨n, hn⟩, s, code, hs, hres⟩ := hg
  rw [recordOf_eq remote countyIndex row n s hn hs, hres]
  rfl

theorem length_filterMap_records (remote : String → SearchResp)
    (countyIndex : Nat) :
    ∀ rows : List Row,
      (∀ r ∈ rows, cellAt r 0 = Cell.empty ∨ goodRow remote r) →
      (rows.filterMap (fun r =>
        if cellAt r 0 = Cell.empty then none
        else recordOf remote countyIndex r)).length =
      rows.length -
        (rows.filter (fun r => decide (cellAt r 0 = Cell.empty))).length := by
  intro rows
  induction rows with
  | nil => intro _; rfl
  | cons row rest ih =>
    intro hgood
    have hrest := ih (fun r hr => hgood r (List.mem_cons_of_mem _ hr))
    have hle : (rest.filter
        (fun r => decide (cellAt r 0 = Cell.empty))).length ≤ rest.length :=
      List.length_filter_le _ _
    cases hrow : (inferInstance : Decidable (cellAt row 0 = Cell.empty)) with
    | isTrue h0 =>
      have hfc : (List.filter (fun r => decide (cellAt r 0 = Cell.empty))
          (row :: rest)).length =
          (List.filter (fun r => decide (cellAt r 0 = Cell.empty))
            rest).length + 1 := by
        simp [List.filter_cons, h0]
      have hfm : (List.filterMap (fun r =>
          if cellAt r 0 = Cell.empty then none
          else recordOf remote countyIndex r) (row :: rest)).length =
          (List.filterMap (fun r =>
            if cellAt r 0 = Cell.empty then none
            else recordOf remote countyIndex r) rest).length := by
        simp [List.filterMap_cons, h0]
      rw [hfm, hfc, hrest, List.length_cons]
      omega
    | isFalse h0 =>
      have hsome := recordOf_isSome_of_good remote countyIndex row
        (by cases hgood row (List.mem_cons_self row rest) with
            | inl h => exact absurd h h0
            | inr h => exact h)
      obtain ⟨ps, hps⟩ := Option.isSome_iff_exists.mp hsome
      have hfc : (List.filter (fun r => decide (cellAt r 0 = Cell.empty))
          (row :: rest)).length =
          (List.filter (fun r => decide (cellAt r 0 = Cell.empty))
            rest).length := by
        simp [List.filter_cons, h0]
      have hfm : (List.filterMap (fun r =>
          if cellAt r 0 = Cell.empty then none
          else recordOf remote countyIndex r) (row :: rest)).length =
          (List.filterMap (fun r =>
            if cellAt r 0 = Cell.empty then none
            else recordOf remote countyIndex r) rest).length + 1 := by
        simp [List.filterMap_cons, h0, hps]
      rw [hfm, hfc, hrest, List.length_cons]
      omega

/-- C6: for a sheet whose data rows each either carry an empty/null first
cell or process successfully, with exactly one row having the empty/null
first cell, the adapter emits exactly N−1 records — one per retained row,
in the retained rows' relative order (the filterMap shape), skipping the
empty-first-cell row entirely. -/
theorem C6_one_skipped_row (remote : String → SearchResp) (countyIndex : Nat)
    (cache : Cache) (rows : List Row) (hc : CacheOk remote cache)
    (hgood : ∀ r ∈ rows, cellAt r 0 = Cell.empty ∨ goodRow remote r)
    (hone : (rows.filter
      (fun r => decide (cellAt r 0 = Cell.empty))).length = 1) :
    ∃ (l : List PollingStation) (cache2 : Cache),
      processRows remote countyIndex cache rows =
        some (Except.ok l, cache2) ∧
      l = rows.filterMap (fun r =>
        if cellAt r 0 = Cell.empty then none
        else recordOf remote countyIndex r) ∧
      l.length = rows.length - 1 := by
  obtain ⟨l, cache2, hrec, hl, -⟩ :=
    processRows_good remote countyIndex rows cache hc hgood
  refine ⟨l, cache2, hrec, hl, ?_⟩
  rw [hl, length_filterMap_records remote countyIndex rows hgood, hone]

/-- Concrete three-row sheet for exercising the skip behaviour: the middle
row's first cell is `None`. -/
def rowA : Row :=
  [Cell.str "x", Cell.str "Pest", Cell.str "Buda", Cell.int 1] ++
    List.replicate 16 (Cell.int 5)

def rowB : Row := Cell.empty :: List.replicate 19 Cell.empty

def rowC : Row :=
  [Cell.str "y", Cell.str "Pest", Cell.str "Buda", Cell.int 2] ++
    List.replicate 16 (Cell.int 5)

def remoteBuda : String → SearchResp :=
  fun _ => SearchResp.candidates [⟨"Buda", "11"⟩]

/-- C6 witness: of three data rows with the middle one blank, exactly two
records are emitted, in order. -/
theorem C6_one_skipped_row_witness :
    ∃ (l : List PollingStation) (cache2 : Cache),
      processRows remoteBuda 0 [] [rowA, rowB, rowC] =
        some (Except.ok l, cache2) ∧
      l = [rowA, rowB, rowC].filterMap (fun r =>
        if cellAt r 0 = Cell.empty then none
        else recordOf remoteBuda 0 r) ∧
      l.length = [rowA, rowB, rowC].length - 1 :=
  C6_one_skipped_row remoteBuda 0 [] [rowA, rowB, rowC] (cacheOk_nil _)
    (by
      intro r hr
      simp only [List.mem_cons, List.not_mem_nil, or_false] at hr
      rcases hr with rfl | rfl | rfl
      · exact Or.inr ⟨by decide, ⟨1, rfl⟩, "Buda", "11", rfl, rfl⟩
      · exact Or.inl rfl
      · exact Or.inr ⟨by decide, ⟨2, rfl⟩, "Buda", "11", rfl, rfl⟩)
    rfl

/-! ### Bridging the fused pipeline and the staged view -/

/-- The feature a station contributes on any non-aborting path. -/
def okFeature (geomRemote : List (String × String) → GeomResp)
    (ps : PollingStation) : Feature :=
  ⟨fetchedGeometry geomRemote ps, ps.properties⟩

theorem featureOf_ok_eq (geomRemote : List (String × String) → GeomResp)
    (ps : PollingStation) (f : Feature)
    (h : featureOf geomRemote ps = Except.ok f) :
    f = okFeature geomRemote ps := by
  unfold featureOf at h
  unfold okFeature fetchedGeometry
  cases hg : geomRemote (stationGeomParams ps) with
  | transportFail msg => rw [hg] at h; cases h
  | badPayload msg =>
    simp only [hg] at h ⊢
    cases h
    rfl
  | points pts =>
    simp only [hg] at h ⊢
    cases hs : shapelyPolygonMapping (pts.map (fun p => (p.lng, p.lat))) with
    | error e =>
      simp only [hs] at h ⊢
      cases h
      rfl
    | ok g =>
      simp only [hs] at h ⊢
      cases h
      rfl

theorem featureOf_error (geomRemote : List (String × String) → GeomResp)
    (ps : PollingStation) (e : PyErr)
    (h : featureOf geomRemote ps = Except.error e) :
    ∃ msg, geomRemote (stationGeomParams ps) = GeomResp.transportFail msg ∧
      e = PyErr.transportError msg := by
  unfold featureOf at h
  cases hg : geomRemote (stationGeomParams ps) with
  | transportFail msg =>
    simp only [hg] at h
    cases h
    exact ⟨msg, rfl, rfl⟩
  | badPayload msg => simp only [hg] at h; cases h
  | points pts =>
    simp only [hg] at h
    cases hs : shapelyPolygonMapping (pts.map (fun p => (p.lng, p.lat))) with
    | error e2 => simp only [hs] at h; cases h
    | ok g => simp only [hs] at h; cases h

theorem featureOf_ok_of_noTransport
    (geomRemote : List (String × String) → GeomResp) (ps : PollingStation)
    (h : ∀ msg, geomRemote (stationGeomParams ps) ≠ GeomResp.transportFail msg) :
    featureOf geomRemote ps = Except.ok (okFeature geomRemote ps) := by
  unfold featureOf okFeature fetchedGeometry
  cases hg : geomRemote (stationGeomParams ps) with
  | transportFail msg => exact absurd hg (h msg)
  | badPayload msg => simp only [hg]
  | points pts =>
    simp only [hg]
    cases hs : shapelyPolygonMapping (pts.map (fun p => (p.lng, p.lat))) with
    | error e => simp only [hs]
    | ok g => simp only [hs]

theorem featureRows_ok (remote : String → SearchResp)
    (geomRemote : List (String × String) → GeomResp) (countyIndex : Nat) :
    ∀ (rows : List Row) (cache : Cache) (fs : List Feature) (c2 : Cache),
      featureRows remote geomRemote countyIndex cache rows =
        some (Except.ok fs, c2) →
      ∃ l : List PollingStation,
        processRows remote countyIndex cache rows =
          some (Except.ok l, c2) ∧
        fs = l.map (okFeature geomRemote) := by
  intro rows
  induction rows with
  | nil =>
    intro cache fs c2 h
    unfold featureRows at h
    simp only [Option.some.injEq, Prod.mk.injEq] at h
    obtain ⟨h1, h2⟩ := h
    simp only [Except.ok.injEq] at h1
    exact ⟨[], by rw [← h2]; rfl, by rw [← h1]; rfl⟩
  | cons row rest ih =>
    intro cache fs c2 h
    unfold featureRows at h
    cases hpr : processRow remote countyIndex cache row with
    | none => rw [hpr] at h; cases h
    | some pr =>
      obtain ⟨res, c'⟩ := pr
      cases res with
      | error e => simp only [hpr] at h; simp at h
      | ok o =>
        cases o with
        | none =>
          simp only [hpr] at h
          obtain ⟨l, hl, hfs⟩ := ih c' fs c2 h
          refine ⟨l, ?_, hfs⟩
          unfold processRows
          simp only [hpr]
          exact hl
        | some ps =>
          simp only [hpr] at h
          cases hfo : featureOf geomRemote ps with
          | error e => simp only [hfo] at h; simp at h
          | ok f =>
            simp only [hfo] at h
            cases hfr : featureRows remote geomRemote countyIndex c' rest with
            | none => rw [hfr] at h; cases h
            | some frr =>
              obtain ⟨res2, c3⟩ := frr
              cases res2 with
              | error e => simp only [hfr] at h; simp at h
              | ok fs' =>
                simp only [hfr, Option.some.injEq, Prod.mk.injEq,
                  Except.ok.injEq] at h
                obtain ⟨hfs, hc3⟩ := h
                obtain ⟨l, hl, hmap⟩ := ih c' fs' c3 hfr
                refine ⟨ps :: l, ?_, ?_⟩
                · unfold processRows
                  simp only [hpr, hl, hc3]
                · rw [← hfs, hmap, List.map_cons,
                    featureOf_ok_eq geomRemote ps f hfo]

theorem featureSheets_ok (remote : String → SearchResp)
    (geomRemote : List (String × String) → GeomResp) :
    ∀ (sheets : List (List Row)) (cache : Cache) (countyIndex : Nat)
      (fs : List Feature) (c2 : Cache),
      featureSheets remote geomRemote cache countyIndex sheets =
        some (Except.ok fs, c2) →
      ∃ l : List PollingStation,
        processSheets remote cache countyIndex sheets =
          some (Except.ok l, c2) ∧
        fs = l.map (okFeature geomRemote) := by
  intro sheets
  induction sheets with
  | nil =>
    intro cache countyIndex fs c2 h
    unfold featureSheets at h
    simp only [Option.some.injEq, Prod.mk.injEq] at h
    obtain ⟨h1, h2⟩ := h
    simp only [Except.ok.injEq] at h1
    exact ⟨[], by rw [← h2]; rfl, by rw [← h1]; rfl⟩
  | cons sheet rest ih =>
    intro cache countyIndex fs c2 h
    unfold featureSheets at h
    cases sheet with
    | nil =>
      unfold featureSheet at h
      simp at h
    | cons header rows =>
      have hsheet : featureSheet remote geomRemote countyIndex cache
          (header :: rows) =
          featureRows remote geomRemote countyIndex cache rows := rfl
      rw [hsheet] at h
      cases hfr : featureRows remote geomRemote countyIndex cache rows with
      | none => rw [hfr] at h; cases h
      | some frr =>
        obtain ⟨res1, c1⟩ := frr
        cases res1 with
        | error e => simp only [hfr] at h; simp at h
        | ok fs1 =>
          simp only [hfr] at h
          cases hfs2 : featureSheets remote geomRemote c1 (countyIndex + 1)
              rest with
          | none => rw [hfs2] at h; cases h
          | some frr2 =>
            obtain ⟨res2, c3⟩ := frr2
            cases res2 with
            | error e => simp only [hfs2] at h; simp at h
            | ok fs2 =>
              simp only [hfs2, Option.some.injEq, Prod.mk.injEq,
                Except.ok.injEq] at h
              obtain ⟨hfs, hc3⟩ := h
              obtain ⟨l1, hl1, hm1⟩ := featureRows_ok remote geomRemote
                countyIndex rows cache fs1 c1 hfr
              obtain ⟨l2, hl2, hm2⟩ := ih c1 (countyIndex + 1) fs2 c3 hfs2
              refine ⟨l1 ++ l2, ?_, ?_⟩
              · unfold processSheets
                have hps : processSheet remote countyIndex cache
                    (header :: rows) =
                    processRows remote countyIndex cache rows := rfl
                simp only [hps, hl1, hl2, hc3]
              · rw [← hfs, hm1, hm2, List.map_append]

/-- C7: whenever the run completes with a `FeatureCollection`, its features
are exactly the image, in order, of the records the record source adapter
produced: one feature per record, each carrying that record's properties,
with no transformation, filtering or reordering by the assembler. -/
theorem C7_output_order (remote : String → SearchResp)
    (geomRemote : List (String × String) → GeomResp)
    (workbook : List (List Row)) (fc : FeatureCollection)
    (h : run remote geomRemote workbook = some (Except.ok fc)) :
    ∃ (stations : List PollingStation) (c2 : Cache),
      polling_stations remote workbook = some (Except.ok stations, c2) ∧
      fc.features = stations.map (okFeature geomRemote) := by
  unfold run at h
  cases hfs : featureSheets remote geomRemote [] 0 workbook with
  | none => rw [hfs] at h; cases h
  | some frr =>
    obtain ⟨res, c2⟩ := frr
    rw [hfs] at h
    cases res with
    | error e => simp at h
    | ok fs =>
      simp only [Option.some.injEq, Except.ok.injEq] at h
      obtain ⟨l, hl, hm⟩ := featureSheets_ok remote geomRemote workbook [] 0
        fs c2 hfs
      exact ⟨l, c2, hl, by rw [← h, hm]⟩

/-- C1 counterexample: a transport failure while issuing one station's
geometry request is raised by `session.get` outside the `try` block, so it is
not caught: no feature is yielded for that station and the whole batch
aborts with the raw client error instead of producing features. -/
theorem C1_counterexample :
    fetchFeatures (fun _ => GeomResp.transportFail "connection reset")
        [⟨[(STATION_NO_PARAM, "1")], [("COUNTY", Cell.str "Pest")]⟩] =
      Except.error (PyErr.transportError "connection reset") ∧
    ∀ fs : List Feature,
      fetchFeatures (fun _ => GeomResp.transportFail "connection reset")
          [⟨[(STATION_NO_PARAM, "1")], [("COUNTY", Cell.str "Pest")]⟩] ≠
        Except.ok fs := by
  refine ⟨rfl, fun fs h => ?_⟩
  rw [show fetchFeatures (fun _ => GeomResp.transportFail "connection reset")
      [⟨[(STATION_NO_PARAM, "1")], [("COUNTY", Cell.str "Pest")]⟩] =
      Except.error (PyErr.transportError "connection reset") from rfl] at h
  cases h

/-- C1 (amended): provided no station's geometry request fails at transport
level, the fetcher yields exactly one feature per consumed record, in order,
each with the record's full property mapping: any error inside the `try`
(bad payload, or polygon construction failure such as an empty point list)
is caught locally and yields `geometry = null` for that station only, with
every other station's feature unaffected.  A transport failure at request
time, however, escapes the handler and aborts the batch. -/
theorem C1_failure_isolation (geomRemote : List (String × String) → GeomResp)
    (l : List PollingStation)
    (h : ∀ ps ∈ l, ∀ msg,
      geomRemote (stationGeomParams ps) ≠ GeomResp.transportFail msg) :
    fetchFeatures geomRemote l = Except.ok (l.map (okFeature geomRemote)) ∧
    (∀ ps : PollingStation,
      (∃ msg, geomRemote (stationGeomParams ps) = GeomResp.badPayload msg) →
      okFeature geomRemote ps = ⟨none, ps.properties⟩) ∧
    (∀ (ps : PollingStation) (pts : List GeoPoint) (e : String),
      geomRemote (stationGeomParams ps) = GeomResp.points pts →
      shapelyPolygonMapping (pts.map (fun p => (p.lng, p.lat))) =
        Except.error e →
      okFeature geomRemote ps = ⟨none, ps.properties⟩) := by
  refine ⟨?_, ?_, ?_⟩
  · induction l with
    | nil => rfl
    | cons ps rest ih =>
      have hps := featureOf_ok_of_noTransport geomRemote ps
        (h ps (List.mem_cons_self ps rest))
      have hrest := ih (fun q hq => h q (List.mem_cons_of_mem _ hq))
      unfold fetchFeatures
      simp only [hps, hrest, List.map_cons]
  · intro ps ⟨msg, hmsg⟩
    unfold okFeature fetchedGeometry
    simp only [hmsg]
  · intro ps pts e hpts hshape
    unfold okFeature fetchedGeometry
    simp only [hpts, hshape]

/-- A geometry oracle that returns a malformed payload for station number 2
and a valid integer triangle for everything else. -/
def geomMix : List (String × String) → GeomResp := fun params =>
  if paramLookup params STATION_NO_PARAM = some "2" then
    GeomResp.badPayload "Expecting value"
  else
    GeomResp.points [⟨0, 0⟩, ⟨1, 1⟩, ⟨0, 2⟩]

def psG : PollingStation :=
  ⟨[(STATION_NO_PARAM, "1"), (SETTLEMENT_CODE_PARAM, "11"),
    (COUNTY_CODE_PARAM, "01")], rowProperties rowA⟩

def psB : PollingStation :=
  ⟨[(STATION_NO_PARAM, "2"), (SETTLEMENT_CODE_PARAM, "11"),
    (COUNTY_CODE_PARAM, "01")], rowProperties rowC⟩

/-- C1 witness: a two-station batch where the second station's payload is
malformed: both features are yielded in order, the second with null geometry,
the first unaffected. -/
theorem C1_failure_isolation_witness :
    fetchFeatures geomMix [psG, psB] =
      Except.ok ([psG, psB].map (okFeature geomMix)) ∧
    (∀ ps : PollingStation,
      (∃ msg, geomMix (stationGeomParams ps) = GeomResp.badPayload msg) →
      okFeature geomMix ps = ⟨none, ps.properties⟩) ∧
    (∀ (ps : PollingStation) (pts : List GeoPoint) (e : String),
      geomMix (stationGeomParams ps) = GeomResp.points pts →
      shapelyPolygonMapping (pts.map (fun p => (p.lng, p.lat))) =
        Except.error e →
      okFeature geomMix ps = ⟨none, ps.properties⟩) :=
  C1_failure_isolation geomMix [psG, psB]
    (by
      intro ps hps msg
      simp only [List.mem_cons, List.not_mem_nil, or_false] at hps
      rcases hps with rfl | rfl
      · intro hc
        rw [show geomMix (stationGeomParams psG) =
            GeomResp.points [⟨0, 0⟩, ⟨1, 1⟩, ⟨0, 2⟩] from rfl] at hc
        cases hc
      · intro hc
        rw [show geomMix (stationGeomParams psB) =
            GeomResp.badPayload "Expecting value" from rfl] at hc
        cases hc)

/-- Header row used in concrete workbooks (discarded by the adapter). -/
def hdrRow : Row := List.replicate 20 (Cell.str "h")

/-- Geometry oracle returning a fixed integer triangle. -/
def geomTri : List (String × String) → GeomResp :=
  fun _ => GeomResp.points [⟨0, 0⟩, ⟨1, 1⟩, ⟨0, 2⟩]

/-- C7 witness: a completed two-row run; the output features are the ordered
image of the adapter's records. -/
theorem C7_output_order_witness :
    ∃ (stations : List PollingStation) (c2 : Cache),
      polling_stations remoteBuda [[hdrRow, rowA, rowC]] =
        some (Except.ok stations, c2) ∧
      (FeatureCollection.mk
        [⟨some ⟨[[(0, 0), (1, 1), (2, 0), (0, 0)]]⟩, rowProperties rowA⟩,
         ⟨some ⟨[[(0, 0), (1, 1), (2, 0), (0, 0)]]⟩, rowProperties rowC⟩]).features =
        stations.map (okFeature geomTri) :=
  C7_output_order remoteBuda geomTri [[hdrRow, rowA, rowC]]
    ⟨[⟨some ⟨[[(0, 0), (1, 1), (2, 0), (0, 0)]]⟩, rowProperties rowA⟩,
      ⟨some ⟨[[(0, 0), (1, 1), (2, 0), (0, 0)]]⟩, rowProperties rowC⟩]⟩
    (by decide)

/-- Association lookup into a properties dict built as a list of pairs. -/
def propLookup (props : List (String × Cell)) (key : String) : Option Cell :=
  (props.find? (fun e => e.1 = key)).map (fun e => e.2)

/-- The single data row of the end-to-end scenario. -/
def row8 : Row :=
  [Cell.str "x", Cell.str "Pest", Cell.str "Szeged", Cell.int 1] ++
    List.replicate 16 (Cell.int 5)

def wb8 : List (List Row) := [[hdrRow, row8]]

def remoteSzeged : String → SearchResp :=
  fun _ => SearchResp.candidates [⟨"Szeged", "123"⟩]

def geom8 : List (String × String) → GeomResp :=
  fun _ => GeomResp.points [⟨46, 20⟩, ⟨46.1, 20.1⟩, ⟨46, 20.2⟩]

/-- The record the adapter produces for `row8`. -/
def ps8 : PollingStation :=
  ⟨[(STATION_NO_PARAM, "1"), (SETTLEMENT_CODE_PARAM, "123"),
    (COUNTY_CODE_PARAM, "01")], rowProperties row8⟩

/-- The feature the fetcher produces for `ps8`: the polygon over the
longitude-first pairs, closed by repeating the first vertex. -/
def feat8 : Feature :=
  ⟨some ⟨[[(20, 46), (20.1, 46.1), (20.2, 46), (20, 46)]]⟩,
   rowProperties row8⟩

/-- C8: the end-to-end scenario — one sheet, one header row, one data row
(county "Pest", settlement "Szeged", station 1, counters 5), lookup returning
code "123", geometry collaborator returning the three lat/lng points — yields
a `FeatureCollection` of exactly one feature whose properties carry the
county, settlement and station number, and whose geometry is the closed
longitude-first polygon [(20,46),(20.1,46.1),(20.2,46),(20,46)] in vertex
order. -/
theorem C8_end_to_end :
    run remoteSzeged geom8 wb8 = some (Except.ok ⟨[feat8]⟩) ∧
    propLookup feat8.properties "COUNTY" = some (Cell.str "Pest") ∧
    propLookup feat8.properties "SETTLEMENT" = some (Cell.str "Szeged") ∧
    propLookup feat8.properties "STATION_NO" = some (Cell.int 1) ∧
    feat8.geometry =
      some ⟨[[(20, 46), (20.1, 46.1), (20.2, 46), (20, 46)]]⟩ := by
  have hshape : shapelyPolygonMapping
      ([(20, 46), (20.1, 46.1), (20.2, 46)] : List (ℚ × ℚ)) =
      Except.ok ⟨[[(20, 46), (20.1, 46.1), (20.2, 46), (20, 46)]]⟩ := by
    have hne : ¬ (some (((20.2 : ℚ)), (46 : ℚ)) =
        some (((20 : ℚ)), (46 : ℚ))) := by
      simp only [Option.some.injEq, Prod.mk.injEq, not_and]
      intro hq
      exact absurd hq (by norm_num)
    unfold shapelyPolygonMapping
    simp only [List.getLast?]
    rw [if_neg (by exact_mod_cast hne)]
    rfl
  have hps : processRow remoteSzeged 0 [] row8 =
      some (Except.ok (some ps8), [("Szeged", "123")]) := by rfl
  have hfo : featureOf geom8 ps8 = Except.ok feat8 := by
    have h1 : featureOf geom8 ps8 =
        match shapelyPolygonMapping
            ([(20, 46), (20.1, 46.1), (20.2, 46)] : List (ℚ × ℚ)) with
        | Except.error _ => Except.ok ⟨none, ps8.properties⟩
        | Except.ok g => Except.ok ⟨some g, ps8.properties⟩ := rfl
    rw [h1, hshape]
    rfl
  refine ⟨?_, rfl, rfl, rfl, rfl⟩
  unfold run featureSheets featureSheet featureRows
  rw [show wb8 = [[hdrRow, row8]] from rfl]
  simp only [hps, hfo]
  rfl

/-! ### The amended matching rule of C2, written from the claim's words -/

/-- The amended claim's matching rule: a candidate display name matches the
settlement name exactly, or with a single trailing newline, or followed by a
space and a nonempty newline-free suffix, itself optionally followed by a
single trailing newline. -/
def specMatchP (name cand : String) : Prop :=
  cand = name ∨ cand = name ++ "\n" ∨
  ∃ s t : String, cand = name ++ " " ++ s ++ t ∧ s ≠ "" ∧
    (∀ c ∈ s.toList, c ≠ '\n') ∧ (t = "" ∨ t = "\n")

theorem charToks_of_literal :
    ∀ cs : List Char, (∀ c ∈ cs, isRegexMeta c = false) →
      charToks cs = some (cs.map RTok.lit) := by
  intro cs
  induction cs with
  | nil => intro _; rfl
  | cons c rest ih =>
    intro h
    have hc : isRegexMeta c = false := h c (List.mem_cons_self c rest)
    have hdot : ¬ c = '.' := by
      intro hd
      rw [hd] at hc
      cases hc
    unfold charToks charTok
    rw [if_neg hdot, if_neg (by rw [hc]; exact Bool.false_ne_true),
      ih (fun d hd => h d (List.mem_cons_of_mem _ hd))]
    rfl

theorem consumeToks_lit :
    ∀ (l cs r : List Char),
      consumeToks (l.map RTok.lit) cs = some r ↔ cs = l ++ r := by
  intro l
  induction l with
  | nil =>
    intro cs r
    simp [consumeToks]
  | cons c l ih =>
    intro cs r
    cases cs with
    | nil =>
      simp only [List.map_cons, consumeToks, List.cons_append]
      constructor
      · intro h; cases h
      · intro h; cases h
    | cons d cs =>
      simp only [List.map_cons, consumeToks, List.cons_append, tokMatches]
      by_cases hcd : c = d
      · rw [if_pos (by simp [hcd]), ih]
        subst hcd
        simp
      · rw [if_neg (by simpa using hcd)]
        constructor
        · intro h; cases h
        · intro h
          injection h with h1 h2
          exact absurd h1.symm hcd

theorem suffixMatches_iff (u : List Char) :
    suffixMatches u = true ↔
      ∃ s t : List Char, u = s ++ t ∧ s ≠ [] ∧ (∀ c ∈ s, c ≠ '\n') ∧
        (t = [] ∨ t = ['\n']) := by
  unfold suffixMatches
  by_cases hg : u.getLast? = some '\n'
  · rw [if_pos hg]
    simp only [Bool.and_eq_true, Bool.not_eq_true', List.isEmpty_eq_false,
      List.all_eq_true, decide_eq_true_eq]
    constructor
    · rintro ⟨hne, hall⟩
      have hu : u ≠ [] := by
        intro he
        rw [he] at hg
        cases hg
      refine ⟨u.dropLast, ['\n'], ?_, hne, hall, Or.inr rfl⟩
      have hlast : u.getLast hu = '\n' := by
        have := List.getLast?_eq_getLast u hu
        rw [this] at hg
        exact (Option.some.inj hg)
      conv_lhs => rw [← List.dropLast_append_getLast hu]
      rw [hlast]
    · rintro ⟨s, t, hu, hs, hall, ht | ht⟩
      · exfalso
        subst ht
        rw [List.append_nil] at hu
        rw [hu] at hg
        have hmem : '\n' ∈ s := by
          have hgl := List.getLast?_eq_getLast s hs
          rw [hgl] at hg
          have hl := Option.some.inj hg
          rw [← hl]
          exact List.getLast_mem hs
        exact hall '\n' hmem rfl
      · subst ht
        rw [hu, List.dropLast_concat]
        exact ⟨hs, hall⟩
  · rw [if_neg hg]
    simp only [Bool.and_eq_true, Bool.not_eq_true', List.isEmpty_eq_false,
      List.all_eq_true, decide_eq_true_eq]
    constructor
    · rintro ⟨hne, hall⟩
      exact ⟨u, [], by rw [List.append_nil], hne, hall, Or.inl rfl⟩
    · rintro ⟨s, t, hu, hs, hall, ht | ht⟩
      · subst ht
        rw [List.append_nil] at hu
        rw [hu]
        exact ⟨hs, hall⟩
      · exfalso
        subst ht
        rw [hu] at hg
        exact hg (List.getLast?_concat s)

theorem toList_append (a b : String) :
    (a ++ b).toList = a.toList ++ b.toList := rfl

theorem string_eq_iff_toList (a b : String) : a = b ↔ a.toList = b.toList := by
  constructor
  · intro h; rw [h]
  · intro h; exact String.ext h

theorem restMatches_iff (r : List Char) :
    restMatches r = true ↔
      r = [] ∨ r = ['\n'] ∨ ∃ u, r = ' ' :: u ∧ suffixMatches u = true := by
  unfold restMatches
  split
  · simp
  · simp
  · rename_i rest
    simp
  · rename_i hne1 hne2 hne3
    constructor
    · intro h; cases h
    · rintro (h | h | ⟨u, hu, hs⟩)
      · exact absurd h (by simpa using hne1)
      · exact absurd h (by simpa using hne2)
      · exact absurd hu (by intro hc; exact hne3 u hc)

theorem patMatches_lit_iff (name cand : String) :
    patMatches (name.toList.map RTok.lit) cand = true ↔
      specMatchP name cand := by
  unfold patMatches
  cases hc : consumeToks (name.toList.map RTok.lit) cand.toList with
  | none =>
    constructor
    · intro h; cases h
    · intro hsp
      exfalso
      have hex : ∃ r, cand.toList = name.toList ++ r := by
        rcases hsp with h | h | ⟨s, t, h, -, -, -⟩
        · exact ⟨[], by rw [h, List.append_nil]⟩
        · refine ⟨['\n'], ?_⟩
          rw [(string_eq_iff_toList _ _).mp h]
          rfl
        · refine ⟨' ' :: (s.toList ++ t.toList), ?_⟩
          rw [(string_eq_iff_toList _ _).mp h]
          show (name.toList ++ " ".toList) ++ s.toList ++ t.toList = _
          simp
      obtain ⟨r, hr⟩ := hex
      have := (consumeToks_lit name.toList cand.toList r).mpr hr
      rw [hc] at this
      cases this
  | some r =>
    have hr : cand.toList = name.toList ++ r :=
      (consumeToks_lit name.toList cand.toList r).mp hc
    rw [restMatches_iff]
    constructor
    · rintro (hrr | hrr | ⟨u, hru, hsu⟩)
      · subst hrr
        rw [List.append_nil] at hr
        exact Or.inl (string_eq_iff_toList cand name |>.mpr hr)
      · subst hrr
        refine Or.inr (Or.inl ?_)
        apply (string_eq_iff_toList _ _).mpr
        rw [hr]
        rfl
      · subst hru
        obtain ⟨s, t, hu, hs, hall, ht⟩ := (suffixMatches_iff u).mp hsu
        refine Or.inr (Or.inr ⟨⟨s⟩, ⟨t⟩, ?_, ?_, ?_, ?_⟩)
        · apply (string_eq_iff_toList _ _).mpr
          rw [hr, hu]
          show _ = (name.toList ++ " ".toList) ++ s ++ t
          simp
        · intro hcon
          rw [string_eq_iff_toList] at hcon
          exact hs hcon
        · exact hall
        · rcases ht with ht | ht
          · exact Or.inl (by rw [ht])
          · exact Or.inr (by rw [ht])
    · rintro (hsp | hsp | ⟨s, t, hsp, hs, hall, ht⟩)
      · left
        have h0 : name.toList ++ [] = name.toList ++ r := by
          rw [List.append_nil]
          exact ((string_eq_iff_toList _ _).mp hsp).symm.trans hr
        exact (List.append_cancel_left h0).symm
      · right; left
        have hr2 : name.toList ++ ['\n'] = name.toList ++ r := by
          rw [← hr, (string_eq_iff_toList _ _).mp hsp]
          rfl
        exact (List.append_cancel_left hr2).symm
      · right; right
        have hr2 : name.toList ++ (' ' :: (s.toList ++ t.toList)) =
            name.toList ++ r := by
          rw [← hr, (string_eq_iff_toList _ _).mp hsp]
          show _ = ((name ++ " ") ++ s ++ t).toList
          rw [toList_append, toList_append, toList_append,
            (rfl : (" " : String).toList = [' '])]
          simp
        refine ⟨s.toList ++ t.toList, (List.append_cancel_left hr2).symm, ?_⟩
        apply (suffixMatches_iff _).mpr
        refine ⟨s.toList, t.toList, rfl, ?_, hall, ?_⟩
        · intro hcon
          exact hs ((string_eq_iff_toList _ _).mpr (by rw [hcon]; rfl))
        · rcases ht with ht | ht
          · exact Or.inl (by rw [ht]; rfl)
          · exact Or.inr (by rw [ht]; rfl)

/-- C2 (amended): for every settlement name free of regex metacharacters, a
candidate display name matches the resolver's interpolated pattern exactly
when it equals the name, or the name followed by a single trailing newline,
or the name followed by a space and a nonempty newline-free suffix (itself
optionally followed by a single trailing newline); on a cache miss the
resolver selects the first candidate satisfying that rule (caching its code)
and fails when no candidate satisfies it — in particular a candidate whose
display name merely contains the name as an interior substring satisfies
none of the alternatives and is never selected. -/
theorem C2_anchored_match (name : String)
    (hm : ∀ c ∈ name.toList, isRegexMeta c = false) :
    ∃ toks, nameToks name = some toks ∧
      (∀ cand : String, patMatches toks cand = true ↔ specMatchP name cand) ∧
      ∀ (remote : String → SearchResp) (cache : Cache) (cs : List Candidate)
        (out : ResolveOut),
        cacheLookup cache name = none →
        remote name = SearchResp.candidates cs →
        get_settlement_code remote cache name = some out →
        ((∃ (pre post : List Candidate) (c : Candidate),
            cs = pre ++ c :: post ∧ specMatchP name c.telepulesNeve ∧
            (∀ c2 ∈ pre, ¬ specMatchP name c2.telepulesNeve) ∧
            out.result = Except.ok c.telepulesKod ∧
            out.cache = (name, c.telepulesKod) :: cache) ∨
         ((∀ c ∈ cs, ¬ specMatchP name c.telepulesNeve) ∧
          out.result = Except.error (PyErr.resolutionError name
            "StopIteration" (searchParams name)) ∧
          out.cache = cache)) := by
  have hnt : nameToks name = some (name.toList.map RTok.lit) :=
    charToks_of_literal name.toList hm
  refine ⟨name.toList.map RTok.lit, hnt, patMatches_lit_iff name, ?_⟩
  intro remote cache cs out hmiss hr hout
  unfold get_settlement_code at hout
  rw [hmiss] at hout
  cases hf : cs.find?
      (fun c => patMatches (name.toList.map RTok.lit) c.telepulesNeve) with
  | some c =>
    simp only [hr, hnt, hf] at hout
    obtain ⟨hp, as, bs, hcs, hall⟩ := List.find?_eq_some.mp hf
    cases hout
    refine Or.inl ⟨as, bs, c, hcs, (patMatches_lit_iff name _).mp hp,
      ?_, rfl, rfl⟩
    intro c2 hc2 hcon
    have := hall c2 hc2
    rw [(patMatches_lit_iff name _).mpr hcon] at this
    cases this
  | none =>
    simp only [hr, hnt, hf] at hout
    cases hout
    refine Or.inr ⟨?_, rfl, rfl⟩
    intro c hcm hcon
    have := List.find?_eq_none.mp hf c hcm
    exact this ((patMatches_lit_iff name _).mpr hcon)

/-- C2 witness: the rule at name "Szeged": "Szeged X" matches (space plus
suffix) while "Szegedinum" and "Nagy Szeged" do not, and the resolver picks
the first rule-satisfying candidate. -/
theorem C2_anchored_match_witness :
    ∃ toks, nameToks "Szeged" = some toks ∧
      (∀ cand : String,
        patMatches toks cand = true ↔ specMatchP "Szeged" cand) ∧
      ∀ (remote : String → SearchResp) (cache : Cache) (cs : List Candidate)
        (out : ResolveOut),
        cacheLookup cache "Szeged" = none →
        remote "Szeged" = SearchResp.candidates cs →
        get_settlement_code remote cache "Szeged" = some out →
        ((∃ (pre post : List Candidate) (c : Candidate),
            cs = pre ++ c :: post ∧ specMatchP "Szeged" c.telepulesNeve ∧
            (∀ c2 ∈ pre, ¬ specMatchP "Szeged" c2.telepulesNeve) ∧
            out.result = Except.ok c.telepulesKod ∧
            out.cache = ("Szeged", c.telepulesKod) :: cache) ∨
         ((∀ c ∈ cs, ¬ specMatchP "Szeged" c.telepulesNeve) ∧
          out.result = Except.error (PyErr.resolutionError "Szeged"
            "StopIteration" (searchParams "Szeged")) ∧
          out.cache = cache)) :=
  C2_anchored_match "Szeged" (by decide)

end Scraper
